import Mathlib

/- Shallow embedding of the MySQL driver's packet framing, buffer management
   and row decoding (src/packets.go, src/buffer.go, src/rows.go).

   Modelling conventions:
   - Go byte slices are `List Nat`, each element a byte value.
   - Go machine integers are `Nat`/`Int`; wrap-around of the `uint8` sequence
     counter is written explicitly as `% 256`.
   - Fallible Go code returns `Except`/`Option`; a Go runtime panic
     (slice index out of range) is the explicit outcome `DriverErr.bounds`.
   - Constants from const.go (absent from the sources) carry the values the
     spec records in its section 6. -/

namespace MySQLDriver

/-- Modelled from the spec: `maxPacketSize = 16_777_215` (2^24 - 1);
the constant lives in const.go which is absent from the sources. -/
def maxPacketSize : Nat := 16777215

/-- defaultBufSize from src/buffer.go: `4 * 1024`. -/
def defaultBufSize : Nat := 4 * 1024

/-- maxCachedBufSize (`256 * 1024`): declared in src/unnamed/part_000;
commented out in src/buffer.go.  Neither version of `store` uses it. -/
def maxCachedBufSize : Nat := 256 * 1024

/-- Modelled from the spec: response marker `iOK = 0x00` (const.go absent). -/
def iOK : Nat := 0x00

/-- Modelled from the spec: response marker `iEOF = 0xFE` (const.go absent). -/
def iEOF : Nat := 0xfe

/-- Modelled from the spec: response marker `iERR = 0xFF` (const.go absent). -/
def iERR : Nat := 0xff

/-- Modelled from the spec: response marker `iLocalInFile = 0xFB`. -/
def iLocalInFile : Nat := 0xfb

/-- Modelled from the spec: command opcode `COM_STMT_EXECUTE = 0x17`. -/
def comStmtExecute : Nat := 0x17

/-- Modelled from the spec: server status flag `SERVER_MORE_RESULTS_EXISTS = 0x0008`. -/
def statusMoreResultsExists : Nat := 0x0008

/-- Modelled from the spec: field flag `UNSIGNED = 0x0020`. -/
def flagUnsigned : Nat := 0x0020

/-- Modelled from the spec, section 6 field type table (const.go absent).
DECIMAL is the only code the decoder handles that the table omits; its
protocol value is 0. -/
def fieldTypeDecimal : Nat := 0

def fieldTypeTiny : Nat := 1

def fieldTypeShort : Nat := 2

def fieldTypeLong : Nat := 3

def fieldTypeFloat : Nat := 4

def fieldTypeDouble : Nat := 5

def fieldTypeNULL : Nat := 6

def fieldTypeTimestamp : Nat := 7

def fieldTypeLongLong : Nat := 8

def fieldTypeInt24 : Nat := 9

def fieldTypeDate : Nat := 10

def fieldTypeTime : Nat := 11

def fieldTypeDateTime : Nat := 12

def fieldTypeYear : Nat := 13

def fieldTypeNewDate : Nat := 14

def fieldTypeVarChar : Nat := 15

def fieldTypeBit : Nat := 16

def fieldTypeJSON : Nat := 245

def fieldTypeNewDecimal : Nat := 246

def fieldTypeEnum : Nat := 247

def fieldTypeSet : Nat := 248

def fieldTypeTinyBLOB : Nat := 249

def fieldTypeMediumBLOB : Nat := 250

def fieldTypeLongBLOB : Nat := 251

def fieldTypeBLOB : Nat := 252

def fieldTypeVarString : Nat := 253

def fieldTypeString : Nat := 254

def fieldTypeGeometry : Nat := 255

/-- Error outcomes of the embedded driver code (errors.go is absent from the
sources; the identifiers follow the names used at the call sites in
src/packets.go and src/buffer.go).  `bounds` stands for a Go runtime
slice-bounds panic, `serverError` for any `handleErrorPacket` result. -/
inductive DriverErr where
  | pktTooLarge
  | invalidConn
  | badConnNoWrite
  | canceledErr
  | pktSync
  | pktSyncMul
  | busyBuffer
  | malformPkt
  | serverError
  | localInFile
  | protocolErr
  | unknownFieldType
  | eofPacket
  | conversionErr
  | bounds
  | notModelled
  deriving Repr, DecidableEq

instance {ε α : Type} [DecidableEq ε] [DecidableEq α] :
    DecidableEq (Except ε α) := fun a b =>
  match a, b with
  | .error e, .error e' =>
    if h : e = e' then isTrue (by rw [h]) else isFalse (by simp [h])
  | .ok x, .ok y =>
    if h : x = y then isTrue (by rw [h]) else isFalse (by simp [h])
  | .error _, .ok _ => isFalse (by simp)
  | .ok _, .error _ => isFalse (by simp)

/-- Little-endian value of a byte list (first byte least significant). -/
def leVal (l : List Nat) : Nat :=
  l.foldr (fun b acc => b + 256 * acc) 0

/-- Go slice expression `data[pos : pos+n]`: defined only when the range is
within bounds (otherwise Go panics). -/
def sliceN (data : List Nat) (pos n : Nat) : Option (List Nat) :=
  if pos + n ≤ data.length then some ((data.drop pos).take n) else none

/-- Interpretation of a `w`-bit unsigned value `v` as a Go signed integer of
the same width (the conversions `int8(...)`, `int16(...)`, ... at
src/packets.go lines 1268-1307). -/
def toSigned (w v : Nat) : Int :=
  if v < 2 ^ (w - 1) then (v : Int) else (v : Int) - 2 ^ w

/-- Little-endian byte encoding of a value in `n` bytes
(`binary.LittleEndian.PutUint*`). -/
def leBytes (n v : Nat) : List Nat :=
  match n with
  | 0 => []
  | m + 1 => v % 256 :: leBytes m (v / 256)

/-! ### Buffer (src/buffer.go; the same functions appear on the `bufio` type
in src/unnamed/part_000 with identical bodies) -/

/-- State of the double buffer that matters to `takeSmallBuffer`, `store` and
friends: `buf` is the primary backing slice, whose Go length and capacity are
equal (comment on the struct), and `length` is the busy counter that is
positive while a write buffer is live.  The net.Conn, timeout and
double-buffering fields play no role in the embedded functions. -/
structure Buffer where
  buf : List Nat
  length : Nat
  deriving Repr, DecidableEq

/-- Outcomes of `takeSmallBuffer`: the `ErrBusyBuffer` return, a successful
slice of the primary buffer, or a Go runtime slice-bounds panic. -/
inductive TakeRes where
  | busy
  | slice (s : List Nat)
  | outOfRange
  deriving Repr, DecidableEq

/-- takeSmallBuffer (src/buffer.go lines 78-83).  The source performs
`return b.buf[:length], nil` with no bound check; slicing past the capacity
of `b.buf` is a Go runtime panic, modelled as `.outOfRange`. -/
def takeSmallBuffer (b : Buffer) (length : Nat) : TakeRes :=
  if b.length > 0 then .busy
  else if length ≤ b.buf.length then .slice (b.buf.take length)
  else .outOfRange

/-- store (src/buffer.go lines 97-104).  `cap buf` of the adopted slice is
modelled as `buf.length`: the source immediately reslices the adopted buffer
to its full capacity (`b.buf = buf[:cap(buf)]`), so only the capacity of the
argument is observable. -/
def store (b : Buffer) (buf : List Nat) : Except DriverErr Buffer :=
  if b.length > 0 then .error .busyBuffer
  else if buf.length ≤ maxPacketSize ∧ buf.length > b.buf.length then
    .ok { b with buf := buf }
  else .ok b

/-! ### writePacket (src/packets.go lines 94-158) -/

/-- Result of a `writePacket` call: the returned error (`none` is a nil
error), the physical packets handed to the writer loop as
(payload size, sequence byte) pairs, the final value of `mc.sequence`, and
whether `mc.cleanup()` ran. -/
structure WPOut where
  result : Option DriverErr
  chunks : List (Nat × Nat)
  seq : Nat
  cleanedUp : Bool
  deriving Repr, DecidableEq

/-- The `for` loop of writePacket (src/packets.go lines 101-157).
`pktLen` is the remaining payload, `dataLen` the Go `len(data)` of the
remaining slice (header bytes included), `seq` is `mc.sequence`.  Each entry
of `wire` is the `(n, err != nil)` outcome the writer loop reports for one
physical packet; an exhausted `wire` models `mc.closech` firing in the
`select`, which returns `ErrInvalidConn` with no packet handed over and no
cleanup.  `canceled` tells whether `mc.canceled.Value()` is set. -/
def writePacketLoop (pktLen dataLen seq : Nat) (wire : List (Nat × Bool))
    (canceled : Bool) : WPOut :=
  match wire with
  | [] => ⟨some .invalidConn, [], seq, false⟩
  | (n, isErr) :: rest =>
    let size := if pktLen ≥ maxPacketSize then maxPacketSize else pktLen
    if isErr = false ∧ n = 4 + size then
      if size ≠ maxPacketSize then
        ⟨none, [(size, seq)], (seq + 1) % 256, false⟩
      else
        let out := writePacketLoop (pktLen - size) (dataLen - size)
          ((seq + 1) % 256) rest canceled
        ⟨out.result, (size, seq) :: out.chunks, out.seq, out.cleanedUp⟩
    else if isErr = false then
      -- n != len(data): mc.cleanup(), log ErrMalformPkt, return ErrInvalidConn
      ⟨some .invalidConn, [(size, seq)], seq, true⟩
    else if canceled then
      ⟨some .canceledErr, [(size, seq)], seq, false⟩
    else if n = 0 ∧ pktLen = dataLen - 4 then
      ⟨some .badConnNoWrite, [(size, seq)], seq, false⟩
    else
      ⟨some .invalidConn, [(size, seq)], seq, true⟩

/-- writePacket (src/packets.go lines 94-158) for a payload of
`payloadLen` bytes (`pktLen := len(data) - 4`).  `maxAllowedPacket` is
`mc.maxAllowedPacket`. -/
def writePacket (payloadLen maxAllowedPacket seq : Nat)
    (wire : List (Nat × Bool)) (canceled : Bool) : WPOut :=
  if payloadLen > maxAllowedPacket then ⟨some .pktTooLarge, [], seq, false⟩
  else writePacketLoop payloadLen (payloadLen + 4) seq wire canceled

/-- A wire on which every physical packet of a `q * maxPacketSize + r`-byte
payload is transmitted completely and without error: `q` full chunks of
`4 + maxPacketSize` bytes, then the final chunk of `4 + r` bytes. -/
def successWire (q r : Nat) : List (Nat × Bool) :=
  List.replicate q (4 + maxPacketSize, false) ++ [(4 + r, false)]

/-- Header count predicted by the claim: `⌈L / maxPacketSize⌉` plus one when
`L` is an exact positive multiple of `maxPacketSize`. -/
def specHeaderCount (L : Nat) : Nat :=
  (L + maxPacketSize - 1) / maxPacketSize +
    (if 0 < L ∧ L % maxPacketSize = 0 then 1 else 0)

/-! ### readPacket (src/packets.go lines 28-91) -/

/-- Result of the sequence-byte check at src/packets.go lines 46-53:
the error returned (if any), the value of `mc.sequence` afterwards, and
whether `mc.Close()` was called. -/
structure SeqCheck where
  result : Option DriverErr
  seq : Nat
  closed : Bool
  deriving Repr, DecidableEq

/-- The sequence check of readPacket (src/packets.go lines 46-53):
`data[3] != mc.sequence` closes the connection and reports `ErrPktSyncMul`
when the received byte is ahead, `ErrPktSync` otherwise; on a match
`mc.sequence++` wraps as a `uint8`. -/
def readPacketSeqCheck (hdrSeq seq : Nat) : SeqCheck :=
  if hdrSeq ≠ seq then
    if hdrSeq > seq then ⟨some .pktSyncMul, seq, true⟩
    else ⟨some .pktSync, seq, true⟩
  else ⟨none, (seq + 1) % 256, false⟩

/-- Result of a `readPacket` call: the payload or error, the final
`mc.sequence`, the bytes left on the stream, and whether the connection was
closed. -/
structure RPOut where
  result : Except DriverErr (List Nat)
  seq : Nat
  rest : List Nat
  closed : Bool
  deriving Repr

/-- readPacket (src/packets.go lines 28-91) over a raw byte stream.
`buf.readNext(n)` is modelled as taking `n` bytes off the stream, failing
when fewer are available (the failure branches consult `mc.canceled` first;
without a pending cancellation they log, call `mc.Close()` and return
`ErrInvalidConn`).  `prev` is the accumulator `prevData` for packets split
over several physical fragments. -/
def readPacketLoop (prev : Option (List Nat)) (stream : List Nat)
    (seq : Nat) (canceled : Bool) : RPOut :=
  match stream with
  | l0 :: l1 :: l2 :: sq :: rest =>
    -- packet length [24 bit]
    let pktLen := l0 + l1 * 256 + l2 * 65536
    let chk := readPacketSeqCheck sq seq
    match chk.result with
    | some e => ⟨.error e, seq, rest, true⟩
    | none =>
      if pktLen = 0 then
        match prev with
        | none => ⟨.error .invalidConn, chk.seq, rest, true⟩
        | some p => ⟨.ok p, chk.seq, rest, false⟩
      else if pktLen ≤ rest.length then
        let body := rest.take pktLen
        let rest1 := rest.drop pktLen
        if pktLen < maxPacketSize then
          match prev with
          | none => ⟨.ok body, chk.seq, rest1, false⟩
          | some p => ⟨.ok (p ++ body), chk.seq, rest1, false⟩
        else
          readPacketLoop (some (prev.getD [] ++ body)) rest1 chk.seq canceled
      else
        ⟨.error (if canceled then .canceledErr else .invalidConn), chk.seq,
          rest, !canceled⟩
  | _ =>
    ⟨.error (if canceled then .canceledErr else .invalidConn), seq, stream,
      !canceled⟩
termination_by stream.length
decreasing_by
  simp only [List.length_cons, List.length_drop]
  omega

/-- readPacket entry point: the loop starts with an empty accumulator. -/
def readPacket (stream : List Nat) (seq : Nat) (canceled : Bool) : RPOut :=
  readPacketLoop none stream seq canceled

/-! ### writeExecutePacket (src/packets.go lines 959-1199) -/

/-- A driver.Value argument of `writeExecutePacket`, after the
`json.RawMessage` case folded into `bytes` (line 1057).  `time.Time`
arguments are not modelled (their encoding needs appendDateTime from the
absent utils.go); `f64` carries the raw IEEE 754 bits
(`math.Float64bits v`). -/
inductive Arg where
  | null
  | i64 (v : Int)
  | u64 (v : Nat)
  | f64 (bits : Nat)
  | boolean (b : Bool)
  | bytes (v : Option (List Nat))
  | str (v : List Nat)
  deriving Repr, DecidableEq

/-- Modelled from the spec: appendLengthEncodedInteger (utils.go absent);
values below 251 use one byte, then the 0xfc/0xfd/0xfe two-, three- and
eight-byte little-endian bands. -/
def appendLengthEncodedInteger (n : Nat) : List Nat :=
  if n ≤ 250 then [n]
  else if n ≤ 0xffff then 0xfc :: leBytes 2 n
  else if n ≤ 0xffffff then 0xfd :: leBytes 3 n
  else 0xfe :: leBytes 8 n

/-- Whether an argument sets its NULL-bitmap bit (the `arg == nil` test at
line 1050 and the `[]byte(nil)` case at line 1140). -/
def argNull : Arg → Bool
  | .null => true
  | .bytes none => true
  | _ => false

/-- Byte `j` of the NULL bitmap written by writeExecutePacket:
bit `i % 8` of `nullMask[i/8]` is set for each nil argument `i`
(lines 1051 and 1140). -/
def nullMaskByte (args : List Arg) (j : Nat) : Nat :=
  (List.range 8).foldl
    (fun acc bit =>
      if 8 * j + bit < args.length ∧ argNull (args.getD (8 * j + bit) .null)
      then acc + 2 ^ bit else acc)
    0

/-- The full NULL bitmap: `(len(args)+7)/8` bytes (line 1017). -/
def nullMaskBytes (args : List Arg) : List Nat :=
  (List.range ((args.length + 7) / 8)).map (nullMaskByte args)

/-- The two type bytes cached per parameter (lines 1052, 1063, 1079, 1095,
1111, 1123, 1141, 1145). -/
def paramTypeBytes : Arg → List Nat
  | .null => [fieldTypeNULL, 0x00]
  | .i64 _ => [fieldTypeLongLong, 0x00]
  | .u64 _ => [fieldTypeLongLong, 0x80]
  | .f64 _ => [fieldTypeDouble, 0x00]
  | .boolean _ => [fieldTypeTiny, 0x00]
  | .bytes none => [fieldTypeNULL, 0x00]
  | .bytes (some _) => [fieldTypeString, 0x00]
  | .str _ => [fieldTypeString, 0x00]

/-- The value bytes appended to `paramValues` for one parameter
(lines 1048-1183).  A byte-slice or string argument of length
`>= longDataSize` takes the COM_STMT_SEND_LONG_DATA side path, which is not
modelled here (`.notModelled`). -/
def paramValueBytes (longDataSize : Nat) : Arg → Except DriverErr (List Nat)
  | .null => .ok []
  | .i64 v => .ok (leBytes 8 (if 0 ≤ v then v.toNat else (2 ^ 64 + v).toNat))
  | .u64 v => .ok (leBytes 8 v)
  | .f64 bits => .ok (leBytes 8 bits)
  | .boolean b => .ok (if b then [0x01] else [0x00])
  | .bytes none => .ok []
  | .bytes (some v) =>
    if v.length < longDataSize then
      .ok (appendLengthEncodedInteger v.length ++ v)
    else .error .notModelled
  | .str v =>
    if v.length < longDataSize then
      .ok (appendLengthEncodedInteger v.length ++ v)
    else .error .notModelled

/-- Concatenation of the value bytes of all parameters in order. -/
def paramValuesBytes (longDataSize : Nat) : List Arg → Except DriverErr (List Nat)
  | [] => .ok []
  | a :: rest =>
    match paramValueBytes longDataSize a with
    | .error e => .error e
    | .ok v =>
      match paramValuesBytes longDataSize rest with
      | .error e => .error e
      | .ok vs => .ok (v ++ vs)

/-- The payload assembled by writeExecutePacket (src/packets.go lines
959-1199), before the 4 header bytes that `writePacket` fills in: command
byte, statement id (LE 32 bit), flags 0x00, iteration count 1 (LE 32 bit);
then, when there are arguments, the NULL bitmap, the new-parameter-bound
flag 0x01, two type bytes per parameter and the concatenated value bytes.
The buffer shuffling through takeBuffer/takeCompleteBuffer/store only
affects allocation, not the bytes produced. -/
def writeExecutePacket (stmtId maxAllowedPacket : Nat) (args : List Arg) :
    Except DriverErr (List Nat) :=
  let longDataSize :=
    if maxAllowedPacket / (args.length + 1) < 64 then 64
    else maxAllowedPacket / (args.length + 1)
  let head := comStmtExecute :: leBytes 4 stmtId ++
    [0x00, 0x01, 0x00, 0x00, 0x00]
  if args.length = 0 then .ok head
  else
    match paramValuesBytes longDataSize args with
    | .error e => .error e
    | .ok values =>
      .ok (head ++ nullMaskBytes args ++ [0x01] ++
        (args.map paramTypeBytes).flatten ++ values)

/-! ### Type codec (utils.go is absent from the sources; these helpers are
modelled from the spec, section 4.3) -/

/-- Modelled from the spec: readLengthEncodedInteger.  First byte `0xfb`
signals NULL; `0xfc`/`0xfd`/`0xfe` announce 2/3/8 little-endian bytes; any
other first byte is its own value.  Returns (value, is-null, bytes read);
`none` models running past the end of the packet. -/
def readLengthEncodedInteger (b : List Nat) : Option (Nat × Bool × Nat) :=
  match b with
  | [] => none
  | b0 :: rest =>
    if b0 = 0xfb then some (0, true, 1)
    else if b0 = 0xfc then (sliceN rest 0 2).map (fun l => (leVal l, false, 3))
    else if b0 = 0xfd then (sliceN rest 0 3).map (fun l => (leVal l, false, 4))
    else if b0 = 0xfe then (sliceN rest 0 8).map (fun l => (leVal l, false, 9))
    else some (b0, false, 1)

/-- Modelled from the spec: readLengthEncodedString — a length-encoded
integer followed by that many raw bytes; the NULL length yields
(empty, is-null).  Returns (bytes, is-null, total bytes read). -/
def readLengthEncodedString (b : List Nat) : Option (List Nat × Bool × Nat) :=
  match readLengthEncodedInteger b with
  | none => none
  | some (num, isNull, n) =>
    if isNull then some ([], true, n)
    else
      match sliceN b n num with
      | none => none
      | some s => some (s, false, n + num)

/-! ### Result-set row decoding (src/packets.go lines 764-851 and
1225-1401; src/rows.go) -/

/-- Column metadata relevant to row decoding (mysqlField,
src/rows.go lines 16-22). -/
structure Col where
  fieldType : Nat
  flags : Nat
  decimals : Nat
  deriving Repr, DecidableEq

/-- A decoded driver.Value.  `ustr n` is `uint64ToString n` (the decimal
string of an unsigned 64-bit value; utils.go absent), `f32`/`f64` carry the
raw IEEE bits handed to `math.Float32frombits`/`Float64frombits`,
`timeStr` abstracts the formatted date/time results of the absent
utils.go formatters, and `floatText` abstracts `strconv.ParseFloat` on a
text field (float semantics are not modelled; no claim touches them). -/
inductive DVal where
  | null
  | int (i : Int)
  | uint (n : Nat)
  | ustr (n : Nat)
  | f32 (bits : Nat)
  | f64 (bits : Nat)
  | bytes (bs : List Nat)
  | timeStr (bs : List Nat)
  | floatText (bs : List Nat) (bitSize : Nat)
  deriving Repr, DecidableEq

/-- ASCII decimal digits to their value; `none` unless the list is nonempty
and all digits. -/
def digitsVal (l : List Nat) : Option Nat :=
  match l with
  | [] => none
  | _ => l.foldl
      (fun acc d => acc.bind fun a =>
        if 48 ≤ d ∧ d ≤ 57 then some (a * 10 + (d - 48)) else none)
      (some 0)

/-- Modelled from the Go standard library: strconv.ParseInt with base 10 and
the given bit size — an optional sign, decimal digits, and a range check
against [-2^(bitSize-1), 2^(bitSize-1) - 1].  `none` is a non-nil error. -/
def strconvParseInt (s : List Nat) (bitSize : Nat) : Option Int :=
  match s with
  | 45 :: rest => (digitsVal rest).bind fun v =>
      if (v : Int) ≤ 2 ^ (bitSize - 1) then some (-(v : Int)) else none
  | 43 :: rest => (digitsVal rest).bind fun v =>
      if (v : Int) ≤ 2 ^ (bitSize - 1) - 1 then some (v : Int) else none
  | _ => (digitsVal s).bind fun v =>
      if (v : Int) ≤ 2 ^ (bitSize - 1) - 1 then some (v : Int) else none

/-- Modelled from the Go standard library: strconv.ParseUint with base 10
and the given bit size. -/
def strconvParseUint (s : List Nat) (bitSize : Nat) : Option Nat :=
  (digitsVal s).bind fun v => if v ≤ 2 ^ bitSize - 1 then some v else none

/-- Conversion of one non-NULL text-protocol field value: the switch on the
column field type in textRows.readRow (src/packets.go lines 813-844).
parseDateTime (utils.go absent) is abstracted as `DVal.timeStr`. -/
def textDecodeValue (c : Col) (parseTime : Bool) (buf : List Nat) :
    Except DriverErr DVal :=
  let t := c.fieldType
  if t = fieldTypeTimestamp ∨ t = fieldTypeDateTime ∨ t = fieldTypeDate ∨
      t = fieldTypeNewDate then
    if parseTime then .ok (.timeStr buf) else .ok (.bytes buf)
  else if t = fieldTypeTiny ∨ t = fieldTypeShort ∨ t = fieldTypeInt24 ∨
      t = fieldTypeYear ∨ t = fieldTypeLong then
    match strconvParseInt buf 32 with
    | some v => .ok (.int v)
    | none => .error .conversionErr
  else if t = fieldTypeLongLong then
    if c.flags &&& flagUnsigned ≠ 0 then
      match strconvParseUint buf 64 with
      | some v => .ok (.uint v)
      | none => .error .conversionErr
    else
      match strconvParseInt buf 64 with
      | some v => .ok (.int v)
      | none => .error .conversionErr
  else if t = fieldTypeFloat then .ok (.floatText buf 32)
  else if t = fieldTypeDouble then .ok (.floatText buf 64)
  else .ok (.bytes buf)

/-- The field loop of textRows.readRow (src/packets.go lines 798-848): each
field is a length-encoded string, NULL markers become nil values, the rest
go through the type switch. -/
def textReadRowCols (parseTime : Bool) (data : List Nat) :
    List Col → Nat → Except DriverErr (List DVal)
  | [], _ => .ok []
  | c :: rest, pos =>
    match readLengthEncodedString (data.drop pos) with
    | none => .error .malformPkt
    | some (buf, isNull, n) =>
      if isNull then
        match textReadRowCols parseTime data rest (pos + n) with
        | .error e => .error e
        | .ok vs => .ok (.null :: vs)
      else
        match textDecodeValue c parseTime buf with
        | .error e => .error e
        | .ok v =>
          match textReadRowCols parseTime data rest (pos + n) with
          | .error e => .error e
          | .ok vs => .ok (v :: vs)

/-- Modelled from the spec: formatBinaryTime (utils.go absent).  A binary
TIME value carries a sign byte and a day count; valid payload lengths are
0, 8 and 12 bytes, all others are rejected.  The produced string is
abstracted as `DVal.timeStr` of the raw payload. -/
def formatBinaryTime (payload : List Nat) (_dstlen : Nat) :
    Except DriverErr DVal :=
  if payload.length = 0 ∨ payload.length = 8 ∨ payload.length = 12 then
    .ok (.timeStr payload)
  else .error .protocolErr

/-- Modelled from the spec: formatBinaryDateTime (utils.go absent).  Valid
payload lengths are 0 (zero value), 4 (date), 7 (date + time) and 11
(+ fractional microseconds). -/
def formatBinaryDateTime (payload : List Nat) (_dstlen : Nat) :
    Except DriverErr DVal :=
  if payload.length = 0 ∨ payload.length = 4 ∨ payload.length = 7 ∨
      payload.length = 11 then
    .ok (.timeStr payload)
  else .error .protocolErr

/-- Modelled from the spec: parseBinaryDateTime (utils.go absent); the same
length bands as formatBinaryDateTime, producing a host time value. -/
def parseBinaryDateTime (num : Nat) (rest : List Nat) :
    Except DriverErr DVal :=
  if num = 0 ∨ num = 4 ∨ num = 7 ∨ num = 11 then
    match sliceN rest 0 num with
    | some payload => .ok (.timeStr payload)
    | none => .error .bounds
  else .error .protocolErr

/-- Membership of a field type in the length-coded binary string family
(src/packets.go lines 1320-1323). -/
def isStringType (t : Nat) : Prop :=
  t = fieldTypeDecimal ∨ t = fieldTypeNewDecimal ∨ t = fieldTypeVarChar ∨
  t = fieldTypeBit ∨ t = fieldTypeEnum ∨ t = fieldTypeSet ∨
  t = fieldTypeTinyBLOB ∨ t = fieldTypeMediumBLOB ∨ t = fieldTypeLongBLOB ∨
  t = fieldTypeBLOB ∨ t = fieldTypeVarString ∨ t = fieldTypeString ∨
  t = fieldTypeGeometry ∨ t = fieldTypeJSON

instance (t : Nat) : Decidable (isStringType t) := by
  unfold isStringType; infer_instance

/-- Membership of a field type in the date/time family
(src/packets.go lines 1338-1341). -/
def isDateType (t : Nat) : Prop :=
  t = fieldTypeDate ∨ t = fieldTypeNewDate ∨ t = fieldTypeTime ∨
  t = fieldTypeTimestamp ∨ t = fieldTypeDateTime

instance (t : Nat) : Decidable (isDateType t) := by
  unfold isDateType; infer_instance

/-- The legal `decimals` values of a TIME/DATETIME column
(src/packets.go lines 1353-1363 and 1372-1382): 0x00 and 0x1f, or 1-6. -/
def legalDecimals (d : Nat) : Prop :=
  d = 0x00 ∨ d = 0x1f ∨ (1 ≤ d ∧ d ≤ 6)

instance (d : Nat) : Decidable (legalDecimals d) := by
  unfold legalDecimals; infer_instance

/-- Decoding of one non-NULL binary-protocol column value: the type switch
of binaryRows.readRow (src/packets.go lines 1262-1397).  Returns the value
and the updated packet position. -/
def binDecodeOne (c : Col) (parseTime : Bool) (data : List Nat) (pos : Nat) :
    Except DriverErr (DVal × Nat) :=
  let t := c.fieldType
  if t = fieldTypeNULL then .ok (.null, pos)
  else if t = fieldTypeTiny then
    match sliceN data pos 1 with
    | none => .error .bounds
    | some bs =>
      if c.flags &&& flagUnsigned ≠ 0 then .ok (.int (leVal bs), pos + 1)
      else .ok (.int (toSigned 8 (leVal bs)), pos + 1)
  else if t = fieldTypeShort ∨ t = fieldTypeYear then
    match sliceN data pos 2 with
    | none => .error .bounds
    | some bs =>
      if c.flags &&& flagUnsigned ≠ 0 then .ok (.int (leVal bs), pos + 2)
      else .ok (.int (toSigned 16 (leVal bs)), pos + 2)
  else if t = fieldTypeInt24 ∨ t = fieldTypeLong then
    match sliceN data pos 4 with
    | none => .error .bounds
    | some bs =>
      if c.flags &&& flagUnsigned ≠ 0 then .ok (.int (leVal bs), pos + 4)
      else .ok (.int (toSigned 32 (leVal bs)), pos + 4)
  else if t = fieldTypeLongLong then
    match sliceN data pos 8 with
    | none => .error .bounds
    | some bs =>
      if c.flags &&& flagUnsigned ≠ 0 then
        if leVal bs > 2 ^ 63 - 1 then .ok (.ustr (leVal bs), pos + 8)
        else .ok (.int (leVal bs), pos + 8)
      else .ok (.int (toSigned 64 (leVal bs)), pos + 8)
  else if t = fieldTypeFloat then
    match sliceN data pos 4 with
    | none => .error .bounds
    | some bs => .ok (.f32 (leVal bs), pos + 4)
  else if t = fieldTypeDouble then
    match sliceN data pos 8 with
    | none => .error .bounds
    | some bs => .ok (.f64 (leVal bs), pos + 8)
  else if isStringType t then
    match readLengthEncodedString (data.drop pos) with
    | none => .error .malformPkt
    | some (s, isNull, n) =>
      if isNull then .ok (.null, pos + n) else .ok (.bytes s, pos + n)
  else if isDateType t then
    match readLengthEncodedInteger (data.drop pos) with
    | none => .error .malformPkt
    | some (num, isNull, n) =>
      if isNull then .ok (.null, pos + n)
      else if t = fieldTypeTime then
        if legalDecimals c.decimals then
          let dstlen := if c.decimals = 0 ∨ c.decimals = 0x1f then 8
            else 8 + 1 + c.decimals
          match sliceN data (pos + n) num with
          | none => .error .bounds
          | some payload =>
            match formatBinaryTime payload dstlen with
            | .error e => .error e
            | .ok v => .ok (v, pos + n + num)
        else .error .protocolErr
      else if parseTime then
        match parseBinaryDateTime num (data.drop (pos + n)) with
        | .error e => .error e
        | .ok v => .ok (v, pos + n + num)
      else
        if t = fieldTypeDate then
          match sliceN data (pos + n) num with
          | none => .error .bounds
          | some payload =>
            match formatBinaryDateTime payload 10 with
            | .error e => .error e
            | .ok v => .ok (v, pos + n + num)
        else if legalDecimals c.decimals then
          let dstlen := if c.decimals = 0 ∨ c.decimals = 0x1f then 19
            else 19 + 1 + c.decimals
          match sliceN data (pos + n) num with
          | none => .error .bounds
          | some payload =>
            match formatBinaryDateTime payload dstlen with
            | .error e => .error e
            | .ok v => .ok (v, pos + n + num)
        else .error .protocolErr
  else .error .unknownFieldType

/-- Bit `j` of the NULL bitmap: `(nullMask[j>>3] >> (j&7)) & 1 == 1`
(src/packets.go line 1256).  Indexing stays in bounds whenever the mask has
its `(columns+2+7)/8` bytes, so a default read models the Go access. -/
def nullBit (mask : List Nat) (j : Nat) : Bool :=
  (mask.getD (j / 8) 0) >>> (j % 8) &&& 1 = 1

/-- The column loop of binaryRows.readRow (src/packets.go lines 1253-1398):
column `i` is NULL when bit `i+2` of the bitmap is set, otherwise its value
is decoded at the running position. -/
def binDecodeCols (parseTime : Bool) (mask data : List Nat) :
    List Col → Nat → Nat → Except DriverErr (List DVal × Nat)
  | [], _, pos => .ok ([], pos)
  | c :: rest, i, pos =>
    if nullBit mask (i + 2) then
      match binDecodeCols parseTime mask data rest (i + 1) pos with
      | .error e => .error e
      | .ok (vs, pos') => .ok (.null :: vs, pos')
    else
      match binDecodeOne c parseTime data pos with
      | .error e => .error e
      | .ok (v, pos1) =>
        match binDecodeCols parseTime mask data rest (i + 1) pos1 with
        | .error e => .error e
        | .ok (vs, pos') => .ok (v :: vs, pos')

/-- binaryRows.readRow (src/packets.go lines 1225-1401) on a row packet:
the 0x00 indicator byte, the NULL bitmap of `(columns+7+2)/8` bytes starting
at offset 1, then the column values.  EOF packets (first byte 0xFE, length
5, which update the status and end the result set) and error packets are
reported as error outcomes; the claims only concern successful row
decodes. -/
def binaryReadRow (cols : List Col) (parseTime : Bool) (data : List Nat) :
    Except DriverErr (List DVal × Nat) :=
  match data with
  | [] => .error .bounds
  | d0 :: _ =>
    if d0 ≠ iOK then
      if d0 = iEOF ∧ data.length = 5 then .error .eofPacket
      else .error .serverError
    else
      let pos := 1 + (cols.length + 7 + 2) / 8
      match sliceN data 1 (pos - 1) with
      | none => .error .bounds
      | some mask => binDecodeCols parseTime mask data cols 0 pos

/-- Width in bytes the spec's table (section 4.7) assigns to one binary
column value found at position `pos` of the row packet: 1/2/4/8 for the
integer types, 4/8 for float/double, the full length-encoded string for the
string family, the length prefix plus the announced payload for the
date/time family, 0 for a NULL bitmap hit or the NULL field type.  Where
the decoder would fail no width is meaningful and 0 is returned. -/
def binValueSize (c : Col) (data : List Nat) (pos : Nat) : Nat :=
  let t := c.fieldType
  if t = fieldTypeNULL then 0
  else if t = fieldTypeTiny then 1
  else if t = fieldTypeShort ∨ t = fieldTypeYear then 2
  else if t = fieldTypeInt24 ∨ t = fieldTypeLong then 4
  else if t = fieldTypeLongLong then 8
  else if t = fieldTypeFloat then 4
  else if t = fieldTypeDouble then 8
  else if isStringType t then
    match readLengthEncodedString (data.drop pos) with
    | some (_, _, n) => n
    | none => 0
  else if isDateType t then
    match readLengthEncodedInteger (data.drop pos) with
    | some (num, isNull, n) => if isNull then n else n + num
    | none => 0
  else 0

/-- Total width of the value section of a binary row per the spec's widths:
the running sum of `binValueSize` over the columns, skipping NULL-bitmap
hits. -/
def binRowSizes (mask data : List Nat) : List Col → Nat → Nat → Nat
  | [], _, _ => 0
  | c :: rest, i, pos =>
    let w := if nullBit mask (i + 2) then 0 else binValueSize c data pos
    w + binRowSizes mask data rest (i + 1) (pos + w)

/-! ### Result-set traversal and rows.Close (src/packets.go lines 505-545,
591-660, 853-871, 1204-1222; src/rows.go lines 67-89).  This layer works on
logical packets, each of which the framing layer above delivers through
readPacket. -/

/-- Connection state at the logical-packet level: `mc.status`, the stream of
logical packets still to be read, and the OK-packet result accumulators of
`mc.result`. -/
structure ConnState where
  status : Nat
  stream : List (List Nat)
  affectedRows : List Int
  insertIds : List Int
  deriving Repr, DecidableEq

/-- readStatus (src/packets.go lines 591-593); needs two bytes. -/
def readStatus (b : List Nat) : Option Nat :=
  match b with
  | b0 :: b1 :: _ => some (b0 + b1 * 256)
  | _ => none

/-- handleOkPacket (src/packets.go lines 630-660): two length-encoded
integers (affected rows, insert id) stored into the last slots of the
result accumulators, then the two status bytes. -/
def handleOkPacket (st : ConnState) (data : List Nat) :
    Except DriverErr ConnState :=
  match readLengthEncodedInteger (data.drop 1) with
  | none => .error .bounds
  | some (affectedRows, _, n) =>
    match readLengthEncodedInteger (data.drop (1 + n)) with
    | none => .error .bounds
    | some (insertId, _, m) =>
      let ar := if st.affectedRows.length > 0 then
          st.affectedRows.set (st.affectedRows.length - 1)
            (toSigned 64 affectedRows)
        else st.affectedRows
      let ii := if st.insertIds.length > 0 then
          st.insertIds.set (st.insertIds.length - 1) (toSigned 64 insertId)
        else st.insertIds
      match readStatus (data.drop (1 + n + m)) with
      | none => .error .bounds
      | some s =>
        .ok { st with status := s, affectedRows := ar, insertIds := ii }

/-- The packet loop of readUntilEOF (src/packets.go lines 854-871) over the
packet stream: ERR packets abort, an EOF packet ends the loop (updating the
status when it has the 5-byte shape), anything else is discarded. -/
def readUntilEOFAux (status : Nat) :
    List (List Nat) → Except DriverErr (Nat × List (List Nat))
  | [] => .error .invalidConn
  | [] :: _ => .error .bounds
  | (d0 :: ptl) :: rest =>
    if d0 = iERR then .error .serverError
    else if d0 = iEOF then
      if ptl.length + 1 = 5 then
        match readStatus (ptl.drop 2) with
        | none => .error .bounds
        | some s => .ok (s, rest)
      else .ok (status, rest)
    else readUntilEOFAux status rest

/-- readUntilEOF on the connection state. -/
def readUntilEOF (st : ConnState) : Except DriverErr ConnState :=
  match readUntilEOFAux st.status st.stream with
  | .error e => .error e
  | .ok (s, rest) => .ok { st with status := s, stream := rest }

/-- readResultSetHeaderPacket (src/packets.go lines 520-545): a zero is
appended to each accumulator, then one packet decides between an OK packet,
an ERR packet, a LOCAL INFILE request and a column count.  LOCAL INFILE
handling lives outside the embedded sources (and outside the spec's scope)
and is modelled as the error outcome `.localInFile`. -/
def readResultSetHeaderPacket (st : ConnState) :
    Except DriverErr (Nat × ConnState) :=
  let st0 : ConnState := { st with
    affectedRows := st.affectedRows ++ [0], insertIds := st.insertIds ++ [0] }
  match st0.stream with
  | [] => .error .invalidConn
  | data :: rest =>
    let st1 : ConnState := { st0 with stream := rest }
    match data with
    | [] => .error .bounds
    | d0 :: _ =>
      if d0 = iOK then
        match handleOkPacket st1 data with
        | .error e => .error e
        | .ok st2 => .ok (0, st2)
      else if d0 = iERR then .error .serverError
      else if d0 = iLocalInFile then .error .localInFile
      else
        match readLengthEncodedInteger data with
        | none => .error .bounds
        | some (num, _, _) => .ok (num, st1)

theorem readUntilEOFAux_length {status : Nat} {l rest : List (List Nat)}
    {s : Nat} (h : readUntilEOFAux status l = .ok (s, rest)) :
    rest.length < l.length := by
  induction l generalizing s rest with
  | nil => simp [readUntilEOFAux] at h
  | cons p tl ih =>
    match p with
    | [] => simp [readUntilEOFAux] at h
    | d0 :: ptl =>
      rw [readUntilEOFAux] at h
      split at h
      · cases h
      · split at h
        · split at h
          · split at h
            · cases h
            · cases h
              simp
          · cases h
            simp
        · have := ih h
          simp only [List.length_cons]
          omega

theorem readUntilEOF_length {st st' : ConnState}
    (h : readUntilEOF st = .ok st') :
    st'.stream.length < st.stream.length := by
  unfold readUntilEOF at h
  cases ha : readUntilEOFAux st.status st.stream with
  | error e => rw [ha] at h; cases h
  | ok p =>
    rw [ha] at h
    cases h
    exact readUntilEOFAux_length ha

theorem readResultSetHeaderPacket_length {st st' : ConnState} {n : Nat}
    (h : readResultSetHeaderPacket st = .ok (n, st')) :
    st'.stream.length < st.stream.length := by
  unfold readResultSetHeaderPacket at h
  cases hs : st.stream with
  | nil => rw [hs] at h; cases h
  | cons data rest =>
    rw [hs] at h
    match data with
    | [] => simp at h
    | d0 :: dtl =>
      simp only at h
      split at h
      · cases hok : handleOkPacket _ (d0 :: dtl) with
        | error e => rw [hok] at h; cases h
        | ok st2 =>
          rw [hok] at h
          cases h
          unfold handleOkPacket at hok
          repeat' split at hok
          all_goals first
            | (cases hok; simp [hs])
            | cases hok
      · split at h
        · cases h
        · split at h
          · cases h
          · split at h
            · cases h
            · cases h
              simp [hs]

/-- discardResults (src/packets.go lines 1204-1222): while the
MORE_RESULTS_EXISTS status bit is set, read a result-set header and, when a
column count is announced, drain the column definitions and the rows. -/
def discardResults (st : ConnState) : Except DriverErr ConnState :=
  if st.status &&& statusMoreResultsExists = 0 then .ok st
  else
    match h : readResultSetHeaderPacket st with
    | .error e => .error e
    | .ok (resLen, st1) =>
      if resLen > 0 then
        match h2 : readUntilEOF st1 with
        | .error e => .error e
        | .ok st2 =>
          match h3 : readUntilEOF st2 with
          | .error e => .error e
          | .ok st3 => discardResults st3
      else discardResults st1
termination_by st.stream.length
decreasing_by
  · have l1 := readResultSetHeaderPacket_length h
    have l2 := readUntilEOF_length h2
    have l3 := readUntilEOF_length h3
    omega
  · exact readResultSetHeaderPacket_length h

/-- mysqlRows.Close (src/rows.go lines 67-89) for rows that still hold a
connection: a broken connection returns `ErrInvalidConn`; otherwise the
unread packets of the current result set are drained unless the EOF was
already seen (`rs.done`), then `discardResults` consumes every further
result set.  `finish()` only releases the cancellation watcher. -/
def mysqlRowsClose (broken done : Bool) (st : ConnState) :
    Except DriverErr ConnState :=
  if broken then .error .invalidConn
  else
    match (if done then .ok st else readUntilEOF st :
        Except DriverErr ConnState) with
    | .error e => .error e
    | .ok st1 =>
      match discardResults st1 with
      | .error e => .error e
      | .ok st2 => .ok st2

/-! ## Claims -/

/-- C5: for every call of writePacket whose payload length exceeds the
connection's maxAllowedPacket, writePacket returns ErrPktTooLarge before
any bytes are passed to the writer (no chunk is handed over), and the
connection is neither closed nor cleaned up. -/
theorem writePacket_tooLarge (L maxAP seq : Nat) (wire : List (Nat × Bool))
    (canceled : Bool) (h : L > maxAP) :
    writePacket L maxAP seq wire canceled =
      ⟨some .pktTooLarge, [], seq, false⟩ := by
  unfold writePacket
  simp [h]

/-- Witness for C5: a 10-byte payload against maxAllowedPacket 5. -/
theorem writePacket_tooLarge_witness :
    10 > 5 ∧ writePacket 10 5 0 [(14, false)] false =
      ⟨some DriverErr.pktTooLarge, [], 0, false⟩ :=
  ⟨by decide, writePacket_tooLarge 10 5 0 [(14, false)] false (by decide)⟩

/-- C3: the sequence check of readPacket — a header sequence byte different
from the expected counter closes the connection and yields ErrPktSyncMul
when the byte is ahead and ErrPktSync otherwise; a matching byte increments
the counter by one (modulo 256, as the counter is a uint8).  The second
conjunct shows the mismatch behaviour on a full readPacket call. -/
theorem readPacket_seq_check (b s : Nat) (hb : b < 256) (hs : s < 256) :
    (readPacketSeqCheck b s =
      if b = s then ⟨none, (s + 1) % 256, false⟩
      else ⟨some (if b > s then .pktSyncMul else .pktSync), s, true⟩)
    ∧ ∀ (l0 l1 l2 : Nat) (rest : List Nat) (c : Bool), b ≠ s →
        readPacket (l0 :: l1 :: l2 :: b :: rest) s c =
          ⟨.error (if b > s then .pktSyncMul else .pktSync), s, rest, true⟩ := by
  constructor
  · unfold readPacketSeqCheck
    by_cases h : b = s
    · simp [h]
    · by_cases h2 : b > s <;> simp [h, h2]
  · intro l0 l1 l2 rest c hne
    rw [readPacket, readPacketLoop]
    unfold readPacketSeqCheck
    by_cases h2 : b > s <;> simp [hne, h2]

/-- Witness for C3: received sequence byte 5 against expected counter 3. -/
theorem readPacket_seq_check_witness :
    (5 : Nat) < 256 ∧ (3 : Nat) < 256 ∧
    (readPacketSeqCheck 5 3 =
      if 5 = 3 then ⟨none, (3 + 1) % 256, false⟩
      else ⟨some (if 5 > 3 then .pktSyncMul else .pktSync), 3, true⟩)
    ∧ ∀ (l0 l1 l2 : Nat) (rest : List Nat) (c : Bool), (5 : Nat) ≠ 3 →
        readPacket (l0 :: l1 :: l2 :: 5 :: rest) 3 c =
          ⟨.error (if 5 > 3 then .pktSyncMul else .pktSync), 3, rest, true⟩ :=
  ⟨by decide, by decide, (readPacket_seq_check 5 3 (by decide) (by decide)).1,
    (readPacket_seq_check 5 3 (by decide) (by decide)).2⟩

/-- C7 counterexample: with no live write buffer and the fresh 4096-byte
primary buffer, the call takeSmallBuffer(5000) refutes the claim — the
requested length neither satisfies nor is checked to satisfy
n ≤ defaultBufSize: the unchecked slice expression runs straight into a
slice-bounds panic instead of any assertion or error return. -/
theorem takeSmallBuffer_no_bound_check :
    takeSmallBuffer ⟨List.replicate defaultBufSize 0, 0⟩ 5000 = .outOfRange
    ∧ ¬ 5000 ≤ defaultBufSize := by
  constructor
  · unfold takeSmallBuffer
    simp only [List.length_replicate]
    norm_num [defaultBufSize]
  · decide

/-- C7 amended: takeSmallBuffer performs no bound check at all.  A live
write buffer yields ErrBusyBuffer; otherwise, for any requested length
within the primary buffer's capacity, it returns the length-n slice of the
primary buffer without allocating.  The bound n ≤ defaultBufSize is an
unchecked obligation of the callers. -/
theorem takeSmallBuffer_spec (buf : List Nat) (n busy : Nat)
    (hn : n ≤ buf.length) :
    takeSmallBuffer ⟨buf, busy + 1⟩ n = .busy
    ∧ takeSmallBuffer ⟨buf, 0⟩ n = .slice (buf.take n)
    ∧ (buf.take n).length = n := by
  refine ⟨?_, ?_, ?_⟩
  · unfold takeSmallBuffer
    simp
  · unfold takeSmallBuffer
    simp [hn]
  · simp [hn]

/-- Witness for C7's amended theorem: a 10-byte slice of a 16-byte primary
buffer. -/
theorem takeSmallBuffer_spec_witness :
    (10 : Nat) ≤ (List.replicate 16 (0 : Nat)).length ∧
    (takeSmallBuffer ⟨List.replicate 16 0, 0 + 1⟩ 10 = .busy
     ∧ takeSmallBuffer ⟨List.replicate 16 0, 0⟩ 10 =
        .slice ((List.replicate 16 (0 : Nat)).take 10)
     ∧ ((List.replicate 16 (0 : Nat)).take 10).length = 10) :=
  ⟨by decide, takeSmallBuffer_spec (List.replicate 16 0) 10 0 (by decide)⟩

/-- C8 counterexample: a buffer one byte larger than the claimed 256 KiB
cached cap is adopted as the new primary buffer (the source compares
against maxPacketSize, not maxCachedBufSize, which src/buffer.go comments
out), refuting the claim that such a buffer leaves the primary unchanged. -/
theorem store_adopts_above_cached_cap :
    store ⟨List.replicate defaultBufSize 0, 0⟩
        (List.replicate (maxCachedBufSize + 1) 0) =
      .ok ⟨List.replicate (maxCachedBufSize + 1) 0, 0⟩
    ∧ maxCachedBufSize < (List.replicate (maxCachedBufSize + 1) (0 : Nat)).length
    ∧ (List.replicate (maxCachedBufSize + 1) (0 : Nat)) ≠
        List.replicate defaultBufSize 0 := by
  refine ⟨?_, ?_, ?_⟩
  · unfold store
    simp only [List.length_replicate]
    norm_num [maxCachedBufSize, defaultBufSize, maxPacketSize]
  · simp only [List.length_replicate]
    omega
  · intro h
    have := congrArg List.length h
    simp only [List.length_replicate] at this
    norm_num [maxCachedBufSize, defaultBufSize] at this

/-- C8 amended: with no live write buffer, store never returns an error and
adopts the passed buffer as the new primary exactly when its capacity
exceeds the current primary's and is at most maxPacketSize (16 MiB − 1) —
not the 256 KiB maxCachedBufSize the claim names. -/
theorem store_spec (b : Buffer) (buf : List Nat) (hb : b.length = 0) :
    store b buf =
      .ok (if buf.length ≤ maxPacketSize ∧ buf.length > b.buf.length
        then { b with buf := buf } else b) := by
  unfold store
  rw [hb]
  simp only [gt_iff_lt, Nat.lt_irrefl, if_false]
  split <;> simp

/-- Witness for C8's amended theorem: growing a 2-byte primary to 3 bytes. -/
theorem store_spec_witness :
    (Buffer.mk [0, 0] 0).length = 0 ∧
    store ⟨[0, 0], 0⟩ [1, 2, 3] =
      .ok (if ([1, 2, 3] : List Nat).length ≤ maxPacketSize ∧
          ([1, 2, 3] : List Nat).length > ([0, 0] : List Nat).length
        then { Buffer.mk [0, 0] 0 with buf := [1, 2, 3] }
        else Buffer.mk [0, 0] 0) :=
  ⟨rfl, store_spec ⟨[0, 0], 0⟩ [1, 2, 3] rfl⟩

/-- C10: evaluation of writePacket at the input that separates the claim
from the code.  First conjunct — the documented case: the very first chunk
fails with an error after zero bytes written, and writePacket returns
errBadConnNoWrite without cleanup.  Second conjunct — the failing case: on
a two-chunk payload (maxPacketSize + 1 bytes) whose first chunk is fully
transmitted, a second-chunk failure with zero bytes written ALSO returns
errBadConnNoWrite without cleanup, because the guard
`n == 0 && pktLen == len(data)-4` holds on every iteration, although the
source comments it as "only for the first loop iteration when nothing was
written yet" and the claim (with that comment) expects cleanup and
ErrInvalidConn here. -/
theorem writePacket_zero_write_guard :
    writePacket 20 100 7 [(0, true)] false =
      ⟨some .badConnNoWrite, [(20, 7)], 7, false⟩
    ∧ writePacket (maxPacketSize + 1) (maxPacketSize + 1) 0
        [(4 + maxPacketSize, false), (0, true)] false =
      ⟨some .badConnNoWrite, [(maxPacketSize, 0), (1, 1)], 1, false⟩ := by
  constructor
  · decide
  · decide

theorem writePacketLoop_success (q : Nat) :
    ∀ (r s : Nat), r < maxPacketSize → s < 256 →
    writePacketLoop (q * maxPacketSize + r) (q * maxPacketSize + r + 4) s
        (successWire q r) false =
      ⟨none,
        (List.range (q + 1)).map (fun i =>
          ((if i = q then r else maxPacketSize), (s + i) % 256)),
        (s + q + 1) % 256, false⟩ := by
  induction q with
  | zero =>
    intro r s hr hs
    have h1 : ¬ maxPacketSize ≤ r := Nat.not_le.mpr hr
    have h2 : r ≠ maxPacketSize := Nat.ne_of_lt hr
    simp [successWire, writePacketLoop, h1, h2, List.range_succ,
      Nat.mod_eq_of_lt hs]
  | succ q ih =>
    intro r s hr hs
    have hmul : (q + 1) * maxPacketSize = q * maxPacketSize + maxPacketSize :=
      Nat.succ_mul q maxPacketSize
    have hge : maxPacketSize ≤ (q + 1) * maxPacketSize + r := by
      rw [hmul]; omega
    have hsub : (q + 1) * maxPacketSize + r - maxPacketSize =
        q * maxPacketSize + r := by rw [hmul]; omega
    have hsub4 : (q + 1) * maxPacketSize + r + 4 - maxPacketSize =
        q * maxPacketSize + r + 4 := by rw [hmul]; omega
    have hs' : (s + 1) % 256 < 256 := Nat.mod_lt _ (by norm_num)
    rw [successWire, List.replicate_succ, List.cons_append, writePacketLoop]
    simp only [ge_iff_le, hge, if_true, eq_self_iff_true, and_self, ne_eq,
      not_true, if_false, ite_true, ite_false, ite_self]
    rw [hsub, hsub4,
      show List.replicate q (4 + maxPacketSize, false) ++ [(4 + r, false)] =
        successWire q r from rfl,
      ih r ((s + 1) % 256) hr hs']
    dsimp only []
    simp only [WPOut.mk.injEq, true_and, and_true]
    constructor
    · conv_rhs => rw [List.range_succ_eq_map]
      rw [List.map_cons, List.map_map]
      simp only [List.cons.injEq]
      refine ⟨?_, ?_⟩
      · have h0 : ¬ ((0 : Nat) = q + 1) := by omega
        simp [h0, Nat.mod_eq_of_lt hs]
      · refine List.map_congr_left fun i hi => ?_
        simp only [Function.comp_apply]
        simp only [Nat.succ_eq_add_one]
        by_cases hiq : i = q
        · subst hiq
          rw [if_pos rfl, if_pos rfl]
          refine congrArg₂ Prod.mk rfl ?_
          omega
        · have hiq1 : ¬ (i + 1 = q + 1) := by omega
          rw [if_neg hiq, if_neg hiq1]
          refine congrArg₂ Prod.mk rfl ?_
          omega
    · omega

/-- C1 amended: for every payload of length `L = q * maxPacketSize + r ≤
maxAllowedPacket` transmitted without error, writePacket hands the writer
exactly `q + 1 = ⌊L / maxPacketSize⌋ + 1` physical packets — `q` full
chunks followed by a final chunk of `r` bytes (empty when `L` is a multiple
of maxPacketSize) — whose sequence bytes increase by 1 modulo 256 per
packet.  For every positive `L` this count equals the claim's
`⌈L / maxPacketSize⌉` headers plus one for exact positive multiples; at
`L = 0` the code emits one packet where the claim counts zero. -/
theorem writePacket_split (q r s maxAP : Nat) (hr : r < maxPacketSize)
    (hs : s < 256) (hL : q * maxPacketSize + r ≤ maxAP) :
    writePacket (q * maxPacketSize + r) maxAP s (successWire q r) false =
      ⟨none,
        (List.range (q + 1)).map (fun i =>
          ((if i = q then r else maxPacketSize), (s + i) % 256)),
        (s + q + 1) % 256, false⟩
    ∧ ((List.range (q + 1)).map (fun i =>
        ((if i = q then r else maxPacketSize), (s + i) % 256))).length = q + 1
    ∧ (0 < q * maxPacketSize + r →
        specHeaderCount (q * maxPacketSize + r) = q + 1) := by
  refine ⟨?_, by simp, ?_⟩
  · unfold writePacket
    rw [if_neg (by omega)]
    exact writePacketLoop_success q r s hr hs
  · intro hpos
    unfold specHeaderCount
    simp only [maxPacketSize] at hr hpos ⊢
    split <;> omega

/-- Witness for C1's amended theorem: a payload of maxPacketSize + 5 bytes
splits into one full chunk with sequence byte 9 and a 5-byte chunk with
sequence byte 10. -/
theorem writePacket_split_witness :
    (5 : Nat) < maxPacketSize ∧ (9 : Nat) < 256 ∧
      1 * maxPacketSize + 5 ≤ maxPacketSize + 5 ∧
    (writePacket (1 * maxPacketSize + 5) (maxPacketSize + 5) 9
        (successWire 1 5) false =
      ⟨none,
        (List.range (1 + 1)).map (fun i =>
          ((if i = 1 then 5 else maxPacketSize), (9 + i) % 256)),
        (9 + 1 + 1) % 256, false⟩
     ∧ ((List.range (1 + 1)).map (fun i =>
         ((if i = 1 then 5 else maxPacketSize), (9 + i) % 256))).length = 1 + 1
     ∧ (0 < 1 * maxPacketSize + 5 →
         specHeaderCount (1 * maxPacketSize + 5) = 1 + 1)) :=
  ⟨by decide, by decide, by omega,
    writePacket_split 1 5 9 (maxPacketSize + 5) (by decide) (by decide)
      (by omega)⟩

/-- C1 counterexample: an empty payload (length 0, as a parameterless
auth-switch response produces) is emitted as exactly one empty physical
packet, while the claim's formula — ⌈0 / maxPacketSize⌉ headers and no
positive-multiple surcharge — predicts zero. -/
theorem writePacket_empty_payload :
    (writePacket 0 1024 0 [(4, false)] false).chunks.length = 1
    ∧ specHeaderCount 0 = 0 := by
  constructor
  · decide
  · decide

theorem discardResults_clears_aux (n : Nat) :
    ∀ (st st' : ConnState), st.stream.length ≤ n →
      discardResults st = .ok st' →
      st'.status &&& statusMoreResultsExists = 0 := by
  induction n with
  | zero =>
    intro st st' hlen h
    rw [discardResults.eq_def] at h
    split at h
    · next hbit => cases h; exact hbit
    · next hbit =>
      split at h
      · cases h
      · next resLen st1 heq =>
        exfalso
        have := readResultSetHeaderPacket_length heq
        omega
  | succ n ih =>
    intro st st' hlen h
    rw [discardResults.eq_def] at h
    split at h
    · next hbit => cases h; exact hbit
    · next hbit =>
      split at h
      · cases h
      · next resLen st1 heq =>
        split at h
        · split at h
          · cases h
          · next st2 heq2 =>
            split at h
            · cases h
            · next st3 heq3 =>
              have l1 := readResultSetHeaderPacket_length heq
              have l2 := readUntilEOF_length heq2
              have l3 := readUntilEOF_length heq3
              exact ih st3 st' (by omega) h
        · have l1 := readResultSetHeaderPacket_length heq
          exact ih st1 st' (by omega) h

/-- C9: whenever mysqlRows.Close on a non-broken connection returns without
error, the current result set has been drained and discardResults has
consumed every further result set, so the MORE_RESULTS_EXISTS status bit is
clear in the state the connection returns to idle with (discardResults only
terminates successfully once its loop condition — the status bit — is
false). -/
theorem mysqlRowsClose_clears (broken done : Bool) (st st' : ConnState)
    (h : mysqlRowsClose broken done st = .ok st') :
    st'.status &&& statusMoreResultsExists = 0 := by
  unfold mysqlRowsClose at h
  split at h
  · cases h
  · split at h
    · cases h
    · next st1 heq1 =>
      split at h
      · cases h
      · next st2 heq2 =>
        cases h
        exact discardResults_clears_aux st1.stream.length st1 st' le_rfl heq2

/-- Witness for C9: a result set whose terminating EOF announces
MORE_RESULTS_EXISTS followed by an OK packet with clear status; Close
drains both and ends with the bit clear. -/
theorem mysqlRowsClose_clears_witness :
    mysqlRowsClose false false
        ⟨8, [[254, 0, 0, 8, 0], [0, 0, 0, 0, 0]], [], []⟩ =
      .ok ⟨0, [], [0], [0]⟩
    ∧ (ConnState.mk 0 [] [0] [0]).status &&& statusMoreResultsExists = 0 := by
  have h : mysqlRowsClose false false
      ⟨8, [[254, 0, 0, 8, 0], [0, 0, 0, 0, 0]], [], []⟩ =
      .ok ⟨0, [], [0], [0]⟩ := by
    simp [mysqlRowsClose, readUntilEOF, readUntilEOFAux, readStatus,
      discardResults, readResultSetHeaderPacket, handleOkPacket,
      readLengthEncodedInteger, sliceN, leVal, toSigned,
      statusMoreResultsExists, iOK, iEOF, iERR, iLocalInFile]
  exact ⟨h, mysqlRowsClose_clears false false _ _ h⟩

theorem binDecodeOne_size (c : Col) (pt : Bool) (data : List Nat)
    (pos pos' : Nat) (v : DVal)
    (h : binDecodeOne c pt data pos = .ok (v, pos')) :
    pos' = pos + binValueSize c data pos := by
  simp only [binDecodeOne] at h
  by_cases h0 : c.fieldType = fieldTypeNULL
  · rw [if_pos h0] at h
    cases h
    simp only [binValueSize]
    rw [if_pos h0]
    omega
  · rw [if_neg h0] at h
    by_cases h1 : c.fieldType = fieldTypeTiny
    · rw [if_pos h1] at h
      simp only [binValueSize]
      rw [if_neg h0, if_pos h1]
      repeat' split at h
      all_goals cases h
      all_goals omega
    · rw [if_neg h1] at h
      by_cases h2 : c.fieldType = fieldTypeShort ∨ c.fieldType = fieldTypeYear
      · rw [if_pos h2] at h
        simp only [binValueSize]
        rw [if_neg h0, if_neg h1, if_pos h2]
        repeat' split at h
        all_goals cases h
        all_goals omega
      · rw [if_neg h2] at h
        by_cases h3 : c.fieldType = fieldTypeInt24 ∨ c.fieldType = fieldTypeLong
        · rw [if_pos h3] at h
          simp only [binValueSize]
          rw [if_neg h0, if_neg h1, if_neg h2, if_pos h3]
          repeat' split at h
          all_goals cases h
          all_goals omega
        · rw [if_neg h3] at h
          by_cases h4 : c.fieldType = fieldTypeLongLong
          · rw [if_pos h4] at h
            simp only [binValueSize]
            rw [if_neg h0, if_neg h1, if_neg h2, if_neg h3, if_pos h4]
            repeat' split at h
            all_goals cases h
            all_goals omega
          · rw [if_neg h4] at h
            by_cases h5 : c.fieldType = fieldTypeFloat
            · rw [if_pos h5] at h
              simp only [binValueSize]
              rw [if_neg h0, if_neg h1, if_neg h2, if_neg h3, if_neg h4,
                if_pos h5]
              repeat' split at h
              all_goals cases h
              all_goals omega
            · rw [if_neg h5] at h
              by_cases h6 : c.fieldType = fieldTypeDouble
              · rw [if_pos h6] at h
                simp only [binValueSize]
                rw [if_neg h0, if_neg h1, if_neg h2, if_neg h3, if_neg h4,
                  if_neg h5, if_pos h6]
                repeat' split at h
                all_goals cases h
                all_goals omega
              · rw [if_neg h6] at h
                by_cases h7 : isStringType c.fieldType
                · rw [if_pos h7] at h
                  simp only [binValueSize]
                  rw [if_neg h0, if_neg h1, if_neg h2, if_neg h3, if_neg h4,
                    if_neg h5, if_neg h6, if_pos h7]
                  cases hres : readLengthEncodedString (data.drop pos) with
                  | none =>
                    simp only [hres] at h
                    cases h
                  | some tri =>
                    obtain ⟨s, isNull, n⟩ := tri
                    simp only [hres] at h ⊢
                    split at h
                    all_goals cases h
                    all_goals omega
                · rw [if_neg h7] at h
                  by_cases h8 : isDateType c.fieldType
                  · rw [if_pos h8] at h
                    simp only [binValueSize]
                    rw [if_neg h0, if_neg h1, if_neg h2, if_neg h3, if_neg h4,
                      if_neg h5, if_neg h6, if_neg h7, if_pos h8]
                    cases hlei : readLengthEncodedInteger (data.drop pos) with
                    | none =>
                      simp only [hlei] at h
                      cases h
                    | some tri =>
                      obtain ⟨num, isNull, n⟩ := tri
                      simp only [hlei] at h ⊢
                      by_cases hNull : isNull = true
                      · rw [if_pos hNull] at h ⊢
                        cases h
                        omega
                      · rw [if_neg hNull] at h ⊢
                        repeat' split at h
                        all_goals cases h
                        all_goals omega
                  · rw [if_neg h8] at h
                    cases h

theorem binDecodeCols_size (pt : Bool) (mask data : List Nat) :
    ∀ (cols : List Col) (i pos : Nat) (vs : List DVal) (pos' : Nat),
      binDecodeCols pt mask data cols i pos = .ok (vs, pos') →
      pos' = pos + binRowSizes mask data cols i pos := by
  intro cols
  induction cols with
  | nil =>
    intro i pos vs pos' h
    simp only [binDecodeCols] at h
    cases h
    simp [binRowSizes]
  | cons c rest ih =>
    intro i pos vs pos' h
    simp only [binDecodeCols] at h
    by_cases hn : nullBit mask (i + 2)
    · rw [if_pos hn] at h
      simp only [binRowSizes]
      rw [if_pos hn]
      simp only [Nat.zero_add, Nat.add_zero]
      split at h
      · cases h
      · next vs1 pos1 heq =>
        cases h
        have := ih (i + 1) pos vs1 pos' heq
        omega
    · rw [if_neg hn] at h
      simp only [binRowSizes]
      rw [if_neg hn]
      split at h
      · cases h
      · next v1 pos1 heq1 =>
        split at h
        · cases h
        · next vs1 pos2 heq2 =>
          cases h
          have hone := binDecodeOne_size c pt data pos pos1 v1 heq1
          have hrest := ih (i + 1) pos1 vs1 pos' heq2
          rw [hone] at hrest
          omega

/-- C2: whenever binaryRows.readRow decodes a row packet successfully, the
final reading position is exactly 1 (the 0x00 indicator byte) plus
⌈(k+2)/8⌉ = (k+2+7)/8 NULL-bitmap bytes (whose bit for column i is tested
at offset i+2) plus the sum over the columns of the spec's type-specific
value widths (zero for columns whose NULL bit is set). -/
theorem binaryReadRow_consumes (cols : List Col) (pt : Bool)
    (data : List Nat) (vals : List DVal) (endPos : Nat)
    (h : binaryReadRow cols pt data = .ok (vals, endPos)) :
    endPos = 1 + (cols.length + 2 + 7) / 8 +
      binRowSizes ((data.drop 1).take ((cols.length + 2 + 7) / 8)) data cols 0
        (1 + (cols.length + 2 + 7) / 8) := by
  have hcomm : cols.length + 2 + 7 = cols.length + 7 + 2 := by omega
  rw [hcomm]
  unfold binaryReadRow at h
  split at h
  · cases h
  · next d0 dtl =>
    split at h
    · split at h
      · cases h
      · cases h
    · simp only [] at h
      split at h
      · cases h
      · next mask hmask =>
        have hsz := binDecodeCols_size pt mask (d0 :: dtl) cols 0
          (1 + (cols.length + 7 + 2) / 8) vals endPos h
        unfold sliceN at hmask
        split at hmask
        · cases hmask
          have hd : 1 + (cols.length + 7 + 2) / 8 - 1 =
              (cols.length + 7 + 2) / 8 := by omega
          rw [hd] at hsz
          exact hsz
        · cases hmask

/-- Witness for C2: a two-column binary row (an INT32 value 1 and the
two-byte string "AB") occupying exactly 9 = 1 + 1 + 4 + 3 bytes. -/
theorem binaryReadRow_consumes_witness :
    binaryReadRow [⟨fieldTypeLong, 0, 0⟩, ⟨fieldTypeString, 0, 0⟩] false
        [0, 0, 1, 0, 0, 0, 2, 65, 66] =
      .ok ([.int 1, .bytes [65, 66]], 9)
    ∧ 9 = 1 + (([⟨fieldTypeLong, 0, 0⟩, ⟨fieldTypeString, 0, 0⟩] :
          List Col).length + 2 + 7) / 8 +
        binRowSizes
          (([0, 0, 1, 0, 0, 0, 2, 65, 66] : List Nat).drop 1 |>.take
            ((([⟨fieldTypeLong, 0, 0⟩, ⟨fieldTypeString, 0, 0⟩] :
              List Col).length + 2 + 7) / 8))
          [0, 0, 1, 0, 0, 0, 2, 65, 66]
          [⟨fieldTypeLong, 0, 0⟩, ⟨fieldTypeString, 0, 0⟩] 0
          (1 + (([⟨fieldTypeLong, 0, 0⟩, ⟨fieldTypeString, 0, 0⟩] :
            List Col).length + 2 + 7) / 8) := by
  have h : binaryReadRow [⟨fieldTypeLong, 0, 0⟩, ⟨fieldTypeString, 0, 0⟩]
      false [0, 0, 1, 0, 0, 0, 2, 65, 66] =
      .ok ([.int 1, .bytes [65, 66]], 9) := by decide
  exact ⟨h, binaryReadRow_consumes _ false _ _ 9 h⟩

theorem binDecodeOne_signedness (c : Col) (pt : Bool) (data : List Nat)
    (pos pos' : Nat) (v : DVal)
    (ht : c.fieldType = fieldTypeTiny ∨ c.fieldType = fieldTypeShort ∨
      c.fieldType = fieldTypeYear ∨ c.fieldType = fieldTypeInt24 ∨
      c.fieldType = fieldTypeLong ∨ c.fieldType = fieldTypeLongLong)
    (h : binDecodeOne c pt data pos = .ok (v, pos')) :
    ∃ bs, sliceN data pos (binValueSize c data pos) = some bs ∧
      (if c.flags &&& flagUnsigned ≠ 0 then
        v = (if c.fieldType = fieldTypeLongLong ∧ 2 ^ 63 - 1 < leVal bs
          then .ustr (leVal bs) else .int (leVal bs))
      else v = .int (toSigned (8 * binValueSize c data pos) (leVal bs))) := by
  rcases ht with ht | ht | ht | ht | ht | ht
  · -- TINY
    have e0 : c.fieldType ≠ fieldTypeNULL := by rw [ht]; decide
    simp only [binDecodeOne] at h
    rw [if_neg e0, if_pos ht] at h
    have hsz : binValueSize c data pos = 1 := by
      simp only [binValueSize]; rw [if_neg e0, if_pos ht]
    rw [hsz]
    cases hsl : sliceN data pos 1 with
    | none =>
      simp only [hsl] at h
      all_goals cases h
    | some bs =>
      simp only [hsl] at h
      refine ⟨bs, rfl, ?_⟩
      by_cases hf : c.flags &&& flagUnsigned ≠ 0
      · rw [if_pos hf] at h ⊢
        cases h
        rw [if_neg (by rw [ht]; rintro ⟨hc, _⟩; revert hc; decide)]
      · rw [if_neg hf] at h ⊢
        cases h
        norm_num
  · -- SHORT
    have e0 : c.fieldType ≠ fieldTypeNULL := by rw [ht]; decide
    have e1 : c.fieldType ≠ fieldTypeTiny := by rw [ht]; decide
    simp only [binDecodeOne] at h
    rw [if_neg e0, if_neg e1, if_pos (Or.inl ht)] at h
    have hsz : binValueSize c data pos = 2 := by
      simp only [binValueSize]; rw [if_neg e0, if_neg e1, if_pos (Or.inl ht)]
    rw [hsz]
    cases hsl : sliceN data pos 2 with
    | none =>
      simp only [hsl] at h
      all_goals cases h
    | some bs =>
      simp only [hsl] at h
      refine ⟨bs, rfl, ?_⟩
      by_cases hf : c.flags &&& flagUnsigned ≠ 0
      · rw [if_pos hf] at h ⊢
        cases h
        rw [if_neg (by rw [ht]; rintro ⟨hc, _⟩; revert hc; decide)]
      · rw [if_neg hf] at h ⊢
        cases h
        norm_num
  · -- YEAR
    have e0 : c.fieldType ≠ fieldTypeNULL := by rw [ht]; decide
    have e1 : c.fieldType ≠ fieldTypeTiny := by rw [ht]; decide
    simp only [binDecodeOne] at h
    rw [if_neg e0, if_neg e1, if_pos (Or.inr ht)] at h
    have hsz : binValueSize c data pos = 2 := by
      simp only [binValueSize]; rw [if_neg e0, if_neg e1, if_pos (Or.inr ht)]
    rw [hsz]
    cases hsl : sliceN data pos 2 with
    | none =>
      simp only [hsl] at h
      all_goals cases h
    | some bs =>
      simp only [hsl] at h
      refine ⟨bs, rfl, ?_⟩
      by_cases hf : c.flags &&& flagUnsigned ≠ 0
      · rw [if_pos hf] at h ⊢
        cases h
        rw [if_neg (by rw [ht]; rintro ⟨hc, _⟩; revert hc; decide)]
      · rw [if_neg hf] at h ⊢
        cases h
        norm_num
  · -- INT24
    have e0 : c.fieldType ≠ fieldTypeNULL := by rw [ht]; decide
    have e1 : c.fieldType ≠ fieldTypeTiny := by rw [ht]; decide
    have e2 : ¬ (c.fieldType = fieldTypeShort ∨ c.fieldType = fieldTypeYear) := by
      rw [ht]; decide
    simp only [binDecodeOne] at h
    rw [if_neg e0, if_neg e1, if_neg e2, if_pos (Or.inl ht)] at h
    have hsz : binValueSize c data pos = 4 := by
      simp only [binValueSize]
      rw [if_neg e0, if_neg e1, if_neg e2, if_pos (Or.inl ht)]
    rw [hsz]
    cases hsl : sliceN data pos 4 with
    | none =>
      simp only [hsl] at h
      all_goals cases h
    | some bs =>
      simp only [hsl] at h
      refine ⟨bs, rfl, ?_⟩
      by_cases hf : c.flags &&& flagUnsigned ≠ 0
      · rw [if_pos hf] at h ⊢
        cases h
        rw [if_neg (by rw [ht]; rintro ⟨hc, _⟩; revert hc; decide)]
      · rw [if_neg hf] at h ⊢
        cases h
        norm_num
  · -- LONG
    have e0 : c.fieldType ≠ fieldTypeNULL := by rw [ht]; decide
    have e1 : c.fieldType ≠ fieldTypeTiny := by rw [ht]; decide
    have e2 : ¬ (c.fieldType = fieldTypeShort ∨ c.fieldType = fieldTypeYear) := by
      rw [ht]; decide
    simp only [binDecodeOne] at h
    rw [if_neg e0, if_neg e1, if_neg e2, if_pos (Or.inr ht)] at h
    have hsz : binValueSize c data pos = 4 := by
      simp only [binValueSize]
      rw [if_neg e0, if_neg e1, if_neg e2, if_pos (Or.inr ht)]
    rw [hsz]
    cases hsl : sliceN data pos 4 with
    | none =>
      simp only [hsl] at h
      all_goals cases h
    | some bs =>
      simp only [hsl] at h
      refine ⟨bs, rfl, ?_⟩
      by_cases hf : c.flags &&& flagUnsigned ≠ 0
      · rw [if_pos hf] at h ⊢
        cases h
        rw [if_neg (by rw [ht]; rintro ⟨hc, _⟩; revert hc; decide)]
      · rw [if_neg hf] at h ⊢
        cases h
        norm_num
  · -- LONGLONG
    have e0 : c.fieldType ≠ fieldTypeNULL := by rw [ht]; decide
    have e1 : c.fieldType ≠ fieldTypeTiny := by rw [ht]; decide
    have e2 : ¬ (c.fieldType = fieldTypeShort ∨ c.fieldType = fieldTypeYear) := by
      rw [ht]; decide
    have e3 : ¬ (c.fieldType = fieldTypeInt24 ∨ c.fieldType = fieldTypeLong) := by
      rw [ht]; decide
    simp only [binDecodeOne] at h
    rw [if_neg e0, if_neg e1, if_neg e2, if_neg e3, if_pos ht] at h
    have hsz : binValueSize c data pos = 8 := by
      simp only [binValueSize]
      rw [if_neg e0, if_neg e1, if_neg e2, if_neg e3, if_pos ht]
    rw [hsz]
    cases hsl : sliceN data pos 8 with
    | none =>
      simp only [hsl] at h
      all_goals cases h
    | some bs =>
      simp only [hsl] at h
      refine ⟨bs, rfl, ?_⟩
      by_cases hf : c.flags &&& flagUnsigned ≠ 0
      · rw [if_pos hf] at h ⊢
        by_cases hv : leVal bs > 2 ^ 63 - 1
        · rw [if_pos hv] at h
          cases h
          rw [if_pos ⟨ht, hv⟩]
        · rw [if_neg hv] at h
          cases h
          rw [if_neg (by rintro ⟨_, hc⟩; exact hv hc)]
      · rw [if_neg hf] at h ⊢
        cases h
        norm_num

theorem textDecode_smallInt (t f d : Nat) (pt : Bool) (buf : List Nat)
    (ht : t = fieldTypeTiny ∨ t = fieldTypeShort ∨ t = fieldTypeInt24 ∨
      t = fieldTypeYear ∨ t = fieldTypeLong) :
    textDecodeValue ⟨t, f, d⟩ pt buf =
      (match strconvParseInt buf 32 with
       | some v => .ok (.int v)
       | none => .error .conversionErr) := by
  rcases ht with ht | ht | ht | ht | ht <;> subst ht <;>
    simp [textDecodeValue, fieldTypeTimestamp, fieldTypeDateTime,
      fieldTypeDate, fieldTypeNewDate, fieldTypeTiny, fieldTypeShort,
      fieldTypeInt24, fieldTypeYear, fieldTypeLong]

theorem textDecode_longlong (f d : Nat) (pt : Bool) (buf : List Nat) :
    textDecodeValue ⟨fieldTypeLongLong, f, d⟩ pt buf =
      (if f &&& flagUnsigned ≠ 0 then
        match strconvParseUint buf 64 with
        | some v => .ok (.uint v)
        | none => .error .conversionErr
      else
        match strconvParseInt buf 64 with
        | some v => .ok (.int v)
        | none => .error .conversionErr) := by
  simp [textDecodeValue, fieldTypeTimestamp, fieldTypeDateTime,
    fieldTypeDate, fieldTypeNewDate, fieldTypeTiny, fieldTypeShort,
    fieldTypeInt24, fieldTypeYear, fieldTypeLong, fieldTypeLongLong]

/-- C6 amended: signedness of decoded integer columns.  Binary protocol
(first conjunct): for every integer-typed column the UNSIGNED flag decides
the interpretation of the little-endian value bytes — unsigned when set
(with an unsigned LONGLONG above MaxInt64 decoded to its decimal string),
two's-complement signed at the type's width otherwise.  Text protocol:
a LONGLONG column follows the flag (third conjunct), but TINY, SHORT,
INT24, YEAR and LONG columns are always parsed as signed 32-bit integers,
with the UNSIGNED flag having no effect (second conjunct) — contrary to
the claim, which asserts flag-driven signedness for every integer-typed
column of both readers. -/
theorem rowDecode_signedness :
    (∀ (c : Col) (pt : Bool) (data : List Nat) (pos pos' : Nat) (v : DVal),
      (c.fieldType = fieldTypeTiny ∨ c.fieldType = fieldTypeShort ∨
        c.fieldType = fieldTypeYear ∨ c.fieldType = fieldTypeInt24 ∨
        c.fieldType = fieldTypeLong ∨ c.fieldType = fieldTypeLongLong) →
      binDecodeOne c pt data pos = .ok (v, pos') →
      ∃ bs, sliceN data pos (binValueSize c data pos) = some bs ∧
        (if c.flags &&& flagUnsigned ≠ 0 then
          v = (if c.fieldType = fieldTypeLongLong ∧ 2 ^ 63 - 1 < leVal bs
            then .ustr (leVal bs) else .int (leVal bs))
        else v = .int (toSigned (8 * binValueSize c data pos) (leVal bs))))
    ∧ (∀ (t f d : Nat) (pt : Bool) (buf : List Nat),
      (t = fieldTypeTiny ∨ t = fieldTypeShort ∨ t = fieldTypeInt24 ∨
        t = fieldTypeYear ∨ t = fieldTypeLong) →
      textDecodeValue ⟨t, f, d⟩ pt buf =
        (match strconvParseInt buf 32 with
         | some v => .ok (.int v)
         | none => .error .conversionErr))
    ∧ (∀ (f d : Nat) (pt : Bool) (buf : List Nat),
      textDecodeValue ⟨fieldTypeLongLong, f, d⟩ pt buf =
        (if f &&& flagUnsigned ≠ 0 then
          match strconvParseUint buf 64 with
          | some v => .ok (.uint v)
          | none => .error .conversionErr
        else
          match strconvParseInt buf 64 with
          | some v => .ok (.int v)
          | none => .error .conversionErr)) :=
  ⟨fun c pt data pos pos' v ht h =>
      binDecodeOne_signedness c pt data pos pos' v ht h,
    fun t f d pt buf ht => textDecode_smallInt t f d pt buf ht,
    fun f d pt buf => textDecode_longlong f d pt buf⟩

/-- C6 counterexample: the text decoder on an UNSIGNED LONG column reading
the decimal string "2147483648" — a value any unsigned 32-bit decode
represents — returns a conversion error (strconv.ParseInt with bit size 32
overflows), instead of decoding the wire bytes as an unsigned integer as
the claim asserts. -/
theorem textDecode_unsigned_long_fails :
    textDecodeValue ⟨fieldTypeLong, flagUnsigned, 0⟩ false
        [50, 49, 52, 55, 52, 56, 51, 54, 52, 56] =
      .error .conversionErr
    ∧ strconvParseUint [50, 49, 52, 55, 52, 56, 51, 54, 52, 56] 32 =
        some 2147483648
    ∧ flagUnsigned &&& flagUnsigned ≠ 0 := by
  refine ⟨by decide, by decide, by decide⟩

/-- Witness for C6's amended theorem: an unsigned binary LONG decodes the
bytes 1 0 0 128 to 2147483649; a text TINY and a text LONGLONG column
(flags 0) decode the digit "5" through the respective parsers. -/
theorem rowDecode_signedness_witness :
    (∃ bs, sliceN [1, 0, 0, 128] 0
        (binValueSize ⟨fieldTypeLong, flagUnsigned, 0⟩ [1, 0, 0, 128] 0) =
          some bs ∧
      (if (Col.mk fieldTypeLong flagUnsigned 0).flags &&& flagUnsigned ≠ 0 then
        DVal.int 2147483649 =
          (if (Col.mk fieldTypeLong flagUnsigned 0).fieldType =
              fieldTypeLongLong ∧ 2 ^ 63 - 1 < leVal bs
            then .ustr (leVal bs) else .int (leVal bs))
      else DVal.int 2147483649 =
        .int (toSigned
          (8 * binValueSize ⟨fieldTypeLong, flagUnsigned, 0⟩ [1, 0, 0, 128] 0)
          (leVal bs))))
    ∧ textDecodeValue ⟨fieldTypeTiny, 0, 0⟩ false [53] =
        (match strconvParseInt [53] 32 with
         | some v => .ok (.int v)
         | none => .error .conversionErr)
    ∧ textDecodeValue ⟨fieldTypeLongLong, 0, 0⟩ false [53] =
        (if 0 &&& flagUnsigned ≠ 0 then
          match strconvParseUint [53] 64 with
          | some v => .ok (.uint v)
          | none => .error .conversionErr
        else
          match strconvParseInt [53] 64 with
          | some v => .ok (.int v)
          | none => .error .conversionErr) :=
  ⟨rowDecode_signedness.1 ⟨fieldTypeLong, flagUnsigned, 0⟩ false
      [1, 0, 0, 128] 0 4 (.int 2147483649)
      (by decide) (by decide),
    rowDecode_signedness.2.1 fieldTypeTiny 0 0 false [53] (Or.inl rfl),
    rowDecode_signedness.2.2 0 0 false [53]⟩

/-- C4: writeExecutePacket on a two-parameter statement with arguments
[NULL, 42] produces exactly the claimed payload: COM_STMT_EXECUTE, the
statement id in little-endian, flags 0x00, iteration count 1, NULL bitmap
0x01, new-parameter-bound flag 0x01, type bytes 0x06 0x00 0x08 0x00, and
the eight little-endian value bytes of 42. -/
theorem writeExecutePacket_null_int (stmtId maxAP : Nat) :
    writeExecutePacket stmtId maxAP [.null, .i64 42] =
      .ok (comStmtExecute :: leBytes 4 stmtId ++
        [0x00, 0x01, 0x00, 0x00, 0x00, 0x01, 0x01,
         0x06, 0x00, 0x08, 0x00, 42, 0, 0, 0, 0, 0, 0, 0]) := by
  unfold writeExecutePacket
  simp [paramValuesBytes, paramValueBytes, nullMaskBytes, nullMaskByte,
    paramTypeBytes, argNull, leBytes, fieldTypeNULL, fieldTypeLongLong,
    List.range_succ]

end MySQLDriver
